import Mathlib

/-!
Shallow embedding of `district_api` (a Python 2 client for the NY Times
Districts API): the `District` value class, the response validators and the
two response decoders from `district_api/api.py`, together with the
exception taxonomy from `district_api/exceptions.py`.

JSON values are modelled by the inductive `Json`; Python dictionaries by
association lists; Python exceptions by the inductive `PyErr`; fallible
Python code by `Except PyErr`.
-/

/-- A JSON value as produced by parsing an API response body.  Numbers are
modelled as rationals (covering both Python ints and the floats appearing in
these payloads). -/
inductive Json where
  | null : Json
  | bool (b : Bool) : Json
  | num (q : ℚ) : Json
  | str (s : String) : Json
  | arr (elems : List Json) : Json
  | obj (fields : List (String × Json)) : Json

/-- The exceptions the client can raise: the `DistrictApiError` hierarchy of
`district_api/exceptions.py` plus the Python builtins that escape from
`api.py`. -/
inductive PyErr where
  | badRequest : PyErr
  | apiUnavailable : PyErr
  | authorizationError : PyErr
  | districtApiError : PyErr
  | locationUnavailable (errs : Option Json) : PyErr
  | invalidResponse (payload : Json) : PyErr
  | typeError : PyErr
  | valueError : PyErr
  | attributeError : PyErr
  | nameError : PyErr
  | indexError : PyErr
  | keyError : PyErr

/-- Python truthiness of a JSON value (`bool(x)` in Python 2). -/
def jsonTruthy : Json → Bool
  | .null => false
  | .bool b => b
  | .num q => q != 0
  | .str s => s != ""
  | .arr l => !l.isEmpty
  | .obj m => !m.isEmpty

/-- Whether a JSON value may be used as a Python dict key (lists and dicts
are unhashable). -/
def jsonHashable : Json → Bool
  | .arr _ => false
  | .obj _ => false
  | _ => true

/-- Whether a JSON value is a string. -/
def Json.isStr : Json → Bool
  | .str _ => true
  | _ => false

mutual

/-- Python structural equality (`==`) on JSON values, as used by
`District.__eq__` on the attribute values.  Numeric cross-type equalities
such as `1 == True` are not modelled, and dict equality is modelled only up
to field order; no claim exercises either corner. -/
def jsonEq : Json → Json → Bool
  | .null, .null => true
  | .bool a, .bool b => a == b
  | .num a, .num b => a == b
  | .str a, .str b => a == b
  | .arr as, .arr bs => jsonEqList as bs
  | .obj as, .obj bs => jsonEqObj as bs
  | _, _ => false

/-- Elementwise Python equality of JSON arrays. -/
def jsonEqList : List Json → List Json → Bool
  | [], [] => true
  | a :: as, b :: bs => jsonEq a b && jsonEqList as bs
  | _, _ => false

/-- Fieldwise Python equality of JSON objects. -/
def jsonEqObj : List (String × Json) → List (String × Json) → Bool
  | [], [] => true
  | (k, v) :: as, (k2, v2) :: bs => (k == k2) && jsonEq v v2 && jsonEqObj as bs
  | _, _ => false

end

/-- Whitespace as stripped by Python's numeric constructors. -/
def isPySpace (c : Char) : Bool :=
  c == ' ' || c == '\t' || c == '\n' || c == '\r' || c == '\x0b' || c == '\x0c'

/-- Strip leading and trailing whitespace from a character list. -/
def trimChars (cs : List Char) : List Char :=
  ((cs.dropWhile isPySpace).reverse.dropWhile isPySpace).reverse

/-- The digits of a decimal literal as a natural number. -/
def digitsToNat (cs : List Char) : Nat :=
  cs.foldl (fun n c => 10 * n + (c.toNat - 48)) 0

/-- One or more decimal digits, or nothing. -/
def decDigits? (cs : List Char) : Option Nat :=
  if cs ≠ [] ∧ cs.all Char.isDigit then some (digitsToNat cs) else none

/-- Model of Python 2 `int(s)` on a string: surrounding whitespace is
stripped, an optional sign is allowed, and the rest must be one or more
decimal digits; `none` models the `ValueError` raised otherwise. -/
def pyIntOfStr (s : String) : Option Int :=
  match trimChars s.toList with
  | '-' :: r => (decDigits? r).map (fun n => -(n : Int))
  | '+' :: r => (decDigits? r).map (fun n => (n : Int))
  | r => (decDigits? r).map (fun n => (n : Int))

/-- Python `int(f)` on a number: truncation toward zero. -/
def pyTrunc (q : ℚ) : Int :=
  if q < 0 then -(Int.floor (-q)) else Int.floor q

/-- Model of Python 2 `int(x)` on a JSON value: numbers truncate, booleans
convert to 0/1, strings are parsed (`ValueError` on failure), and `None`,
lists and dicts raise `TypeError`. -/
def pyIntOfJson : Json → Except PyErr Int
  | .num q => .ok (pyTrunc q)
  | .bool b => .ok (if b then 1 else 0)
  | .str s =>
      match pyIntOfStr s with
      | some n => .ok n
      | none => .error .valueError
  | .null => .error .typeError
  | .arr _ => .error .typeError
  | .obj _ => .error .typeError

/-- Python 2 cross-type ordering rank: `None` sorts below everything,
numbers (including booleans) below all other types, and the remaining types
by type name (`dict` < `list` < `str`). -/
def pyTypeRank : Json → Nat
  | .null => 0
  | .bool _ => 1
  | .num _ => 1
  | .obj _ => 2
  | .arr _ => 3
  | .str _ => 4

/-- The numeric value of a number-like JSON value. -/
def pyNumVal : Json → ℚ
  | .bool b => if b then 1 else 0
  | .num q => q
  | _ => 0

/-- Lexicographic comparison of character lists: Python 2's ordering on
(unicode) strings. -/
def charListLt : List Char → List Char → Bool
  | [], [] => false
  | [], _ :: _ => true
  | _ :: _, [] => false
  | a :: as, b :: bs => a < b || (a == b && charListLt as bs)

/-- Python 2 `<` on strings. -/
def pyStrLt (s t : String) : Bool :=
  charListLt s.toList t.toList

/-- Python 2 `<` on the values reachable from the fallback branch of
`District.__lt__` (where at least one side is a string): same-type numeric
and string comparisons, and cross-type comparison by rank.  List-list and
dict-dict comparisons cannot be reached from that branch and are modelled as
`false`. -/
def pyRawLt (a b : Json) : Bool :=
  if pyTypeRank a = pyTypeRank b then
    match a, b with
    | .bool _, _ => decide (pyNumVal a < pyNumVal b)
    | .num _, _ => decide (pyNumVal a < pyNumVal b)
    | .str s, .str t => pyStrLt s t
    | _, _ => false
  else decide (pyTypeRank a < pyTypeRank b)

/-- `District` from `district_api/api.py`: the name or number of the
district, the political body it elects to, and the URL of its KML boundary
file.  All three attributes hold whatever JSON value the response row
carried. -/
structure District where
  district : Json
  level : Json
  kml_url : Json

/-- The right-hand operand of `District.__lt__`: either another `District`,
or an arbitrary non-`District` value, which lacks the `district`
attribute. -/
inductive CmpOperand where
  | dist (d : District) : CmpOperand
  | plain (v : Json) : CmpOperand

/-- `District.__lt__`: try `int` conversion of both `district` attributes
(left one first); if both convert, compare numerically; on `ValueError`
fall back to comparing the raw attributes; an `AttributeError` raised while
still inside the `try` block becomes `TypeError`, but one raised inside the
`except ValueError` handler propagates unchanged. -/
def districtLtPy (a : District) (other : CmpOperand) : Except PyErr Bool :=
  match pyIntOfJson a.district with
  | .ok sc =>
      match other with
      | .plain _ => .error .typeError
      | .dist b =>
          match pyIntOfJson b.district with
          | .ok oc => .ok (decide (sc < oc))
          | .error .valueError => .ok (pyRawLt a.district b.district)
          | .error e => .error e
  | .error .valueError =>
      match other with
      | .plain _ => .error .attributeError
      | .dist b => .ok (pyRawLt a.district b.district)
  | .error e => .error e

/-- `District.__lt__` between two `District` objects. -/
def districtLt (a b : District) : Except PyErr Bool :=
  districtLtPy a (.dist b)

/-- The right-hand operand of `District.__eq__`: an object with any subset
of the three `District` attributes present. -/
structure EqOperand where
  district : Option Json
  level : Option Json
  kml_url : Option Json

/-- `District.__eq__`: compare all three attributes; an `AttributeError`
(some attribute missing on the other object) yields `False`. -/
def districtEqPy (a : District) (other : EqOperand) : Bool :=
  match other.district, other.level, other.kml_url with
  | some d, some l, some k => jsonEq a.district d && jsonEq a.level l && jsonEq a.kml_url k
  | _, _, _ => false

/-- `DistrictApi.validate_response`, reduced to the status code it
inspects. -/
def validate_response (status_code : Nat) : Except PyErr Unit :=
  if status_code = 200 then .ok ()
  else if status_code = 400 then .error .badRequest
  else if status_code = 404 ∨ status_code = 500 then .error .apiUnavailable
  else if status_code = 403 then .error .authorizationError
  else .error .districtApiError

/-- Python `x == 'OK'` for a JSON value `x`. -/
def jsonIsOK : Json → Bool
  | .str s => s == "OK"
  | _ => false

/-- `DistrictApi.validate_response_body`: `response_dict.get('status')`
must be present and truthy, else `InvalidResponse`; a truthy status other
than `"OK"` raises `LocationUnavailable` carrying
`response_dict.get('errors')`. -/
def validate_response_body (response_dict : List (String × Json)) : Except PyErr Unit :=
  match response_dict.lookup "status" with
  | none => .error (.invalidResponse (Json.obj response_dict))
  | some status =>
      if !jsonTruthy status then .error (.invalidResponse (Json.obj response_dict))
      else if !jsonIsOK status then
        .error (.locationUnavailable (response_dict.lookup "errors"))
      else .ok ()

/-- Python iteration (`for result in results`) over a JSON value: arrays
yield their elements, strings their characters (as 1-character strings),
dicts their keys; other values raise `TypeError` in the `for` statement
itself. -/
def pyIter : Json → Except PyErr (List Json)
  | .arr l => .ok l
  | .str s => .ok (s.toList.map (fun c => Json.str c.toString))
  | .obj m => .ok (m.map (fun p => Json.str p.1))
  | .null => .error .typeError
  | .bool _ => .error .typeError
  | .num _ => .error .typeError

/-- The decoders' loop body up to `District` construction:
`result['district']`, `result['level']`, `result['kml_url']`.  `none`
models the `KeyError`/`TypeError` the loop catches (a non-mapping row, or a
mapping missing one of the three keys). -/
def rowDistrict : Json → Option District
  | .obj fields =>
      match fields.lookup "district", fields.lookup "level", fields.lookup "kml_url" with
      | some d, some l, some k => some ⟨d, l, k⟩
      | _, _, _ => none
  | _ => none

/-- Equality of Python dict keys.  The keys the decoders store are always
hashable atoms (`None`, booleans, numbers, strings) — container-valued
levels are rejected before insertion — so atom-wise comparison suffices. -/
def keyBeq : Json → Json → Bool
  | .null, .null => true
  | .bool a, .bool b => a == b
  | .num a, .num b => a == b
  | .str a, .str b => a == b
  | _, _ => false

/-- Lookup in a Python dict modelled as an association list with unique
keys. -/
def dictLookup {β : Type} (k : Json) : List (Json × β) → Option β
  | [] => none
  | (k2, v) :: rest => if keyBeq k k2 then some v else dictLookup k rest

/-- `d[k] = v` on a Python dict: replace the value of an existing key, else
append a new entry. -/
def setKey {β : Type} (m : List (Json × β)) (k : Json) (v : β) : List (Json × β) :=
  match m with
  | [] => [(k, v)]
  | (k2, v2) :: rest =>
      if keyBeq k2 k then (k2, v) :: rest else (k2, v2) :: setKey rest k v

/-- `defaultdict(list)` append: `raw_districts[lvl].append(d)`. -/
def addRow (m : List (Json × List District)) (lvl : Json) (d : District) :
    List (Json × List District) :=
  match m with
  | [] => [(lvl, [d])]
  | (k, ds) :: rest =>
      if keyBeq k lvl then (k, ds ++ [d]) :: rest else (k, ds) :: addRow rest lvl d

/-- The loop of `construct_single_location_data`: build a `District` from
each row and store it under its level (last write wins); a `KeyError` or
`TypeError` in the body (bad row, or unhashable level used as key) is caught
and re-raised as `InvalidResponse` carrying the offending row. -/
def singleLoop (m : List (Json × District)) :
    List Json → Except PyErr (List (Json × District))
  | [] => .ok m
  | row :: rest =>
      match rowDistrict row with
      | none => .error (.invalidResponse row)
      | some d =>
          if jsonHashable d.level then singleLoop (setKey m d.level d) rest
          else .error (.invalidResponse row)

/-- `DistrictApi.construct_single_location_data`.  A `TypeError` raised by
the `for` statement itself (non-iterable `results`) reaches a handler that
mentions the still-unbound loop variable, hence `NameError`. -/
def construct_single_location_data (data : List (String × Json)) :
    Except PyErr (List (Json × District)) := do
  let results ←
    match data.lookup "results" with
    | some r => Except.ok r
    | none => Except.error (PyErr.invalidResponse (Json.obj data))
  let items ←
    match pyIter results with
    | .ok l => Except.ok l
    | .error _ => Except.error PyErr.nameError
  singleLoop [] items

/-- One insertion step of the model of Python's stable `sorted` on
`District` lists: `a` is placed before the first element `b` with
`not (b < a)`. -/
def pyInsert (a : District) : List District → Except PyErr (List District)
  | [] => .ok [a]
  | b :: l =>
      match districtLt b a with
      | .error e => .error e
      | .ok true =>
          match pyInsert a l with
          | .error e => .error e
          | .ok rest => .ok (b :: rest)
      | .ok false => .ok (a :: b :: l)

/-- Model of Python's `sorted` on a `District` list: a stable insertion
sort driven by `District.__lt__`; a `TypeError` raised by a comparison
propagates. -/
def pySorted : List District → Except PyErr (List District)
  | [] => .ok []
  | a :: l =>
      match pySorted l with
      | .error e => .error e
      | .ok s => pyInsert a s

/-- The first loop of `construct_all_locations_data`: build a `District`
from each row and append it to its level's list. -/
def allLoop (m : List (Json × List District)) :
    List Json → Except PyErr (List (Json × List District))
  | [] => .ok m
  | row :: rest =>
      match rowDistrict row with
      | none => .error (.invalidResponse row)
      | some d =>
          if jsonHashable d.level then allLoop (addRow m d.level d) rest
          else .error (.invalidResponse row)

/-- The second loop of `construct_all_locations_data`: sort each level's
list; a `TypeError` raised by a comparison propagates uncaught. -/
def sortEntries : List (Json × List District) → Except PyErr (List (Json × List District))
  | [] => .ok []
  | (k, ds) :: rest =>
      match pySorted ds with
      | .error e => .error e
      | .ok s =>
          match sortEntries rest with
          | .error e => .error e
          | .ok tail => .ok ((k, s) :: tail)

/-- `DistrictApi.construct_all_locations_data`. -/
def construct_all_locations_data (data : List (String × Json)) :
    Except PyErr (List (Json × List District)) := do
  let results ←
    match data.lookup "results" with
    | some r => Except.ok r
    | none => Except.error (PyErr.invalidResponse (Json.obj data))
  let items ←
    match pyIter results with
    | .ok l => Except.ok l
    | .error _ => Except.error PyErr.nameError
  let raw ← allLoop [] items
  sortEntries raw

/-- The mantissa of a Python float literal: `D+`, `D+.D*` or `.D+`. -/
def pyDecCore (cs : List Char) : Option ℚ :=
  match cs.span (fun c => c != '.') with
  | (intPart, []) =>
      if intPart ≠ [] ∧ intPart.all Char.isDigit then some (digitsToNat intPart : ℚ)
      else none
  | (intPart, _dot :: fracPart) =>
      if (intPart ≠ [] ∨ fracPart ≠ []) ∧ intPart.all Char.isDigit ∧
          fracPart.all Char.isDigit then
        some ((digitsToNat intPart : ℚ) +
          (digitsToNat fracPart : ℚ) / ((10 : ℚ) ^ fracPart.length))
      else none

/-- Model of Python `float(s)` on a string: surrounding whitespace is
stripped, then an optional sign, a decimal mantissa and an optional
exponent.  The non-finite literals (`inf`, `nan`, ...) have no rational
value and are outside the model; `none` models `ValueError`. -/
def pyFloatOfStr (s : String) : Option ℚ :=
  let t := trimChars s.toList
  let signed : ℚ × List Char :=
    match t with
    | '-' :: r => (-1, r)
    | '+' :: r => (1, r)
    | r => (1, r)
  match signed.2.span (fun c => c != 'e' && c != 'E') with
  | (mant, []) => (pyDecCore mant).map (fun m => signed.1 * m)
  | (mant, _e :: ex) =>
      let esigned : Int × List Char :=
        match ex with
        | '-' :: r => (-1, r)
        | '+' :: r => (1, r)
        | r => (1, r)
      if esigned.2 ≠ [] ∧ esigned.2.all Char.isDigit then
        (pyDecCore mant).map (fun m =>
          signed.1 * m * (10 : ℚ) ^ (esigned.1 * (digitsToNat esigned.2 : Int)))
      else none

/-- Model of Python `float(x)` on a JSON value: numbers pass through,
booleans convert to 0/1, strings are parsed (`ValueError` on failure), and
`None`, lists and dicts raise `TypeError`. -/
def pyFloat : Json → Except PyErr ℚ
  | .num q => .ok q
  | .bool b => .ok (if b then 1 else 0)
  | .str s =>
      match pyFloatOfStr s with
      | some q => .ok q
      | none => .error .valueError
  | .null => .error .typeError
  | .arr _ => .error .typeError
  | .obj _ => .error .typeError

/-- Python `v[i]` for a natural-number index: sequences index their
elements (strings their characters), out of range raises `IndexError`; a
dict looks the index up as a key, and since JSON objects carry only string
keys this raises `KeyError`; other values raise `TypeError`. -/
def pyIndexNat (v : Json) (i : Nat) : Except PyErr Json :=
  match v with
  | .arr l =>
      match l.get? i with
      | some x => .ok x
      | none => .error .indexError
  | .str s =>
      match s.toList.get? i with
      | some c => .ok (Json.str c.toString)
      | none => .error .indexError
  | .obj _ => .error .keyError
  | .null => .error .typeError
  | .bool _ => .error .typeError
  | .num _ => .error .typeError

/-- The argument validation prefix of `DistrictApi.get_districts`:
`lat = float(lat_lng[0])` then `lng = float(lat_lng[1])`, each raising
before any network request is sent. -/
def get_districts_args (lat_lng : Json) : Except PyErr (ℚ × ℚ) := do
  let x0 ← pyIndexNat lat_lng 0
  let lat ← pyFloat x0
  let x1 ← pyIndexNat lat_lng 1
  let lng ← pyFloat x1
  return (lat, lng)

/-- `DistrictApi.construct_query_vars`: always the API key under `api-key`;
`lat`/`lng` added exactly when a (truthy, i.e. present) coordinate pair is
given. -/
def construct_query_vars (api_key : String) (lat_lng : Option (ℚ × ℚ)) :
    List (String × Json) :=
  match lat_lng with
  | none => [("api-key", Json.str api_key)]
  | some (a, b) =>
      [("api-key", Json.str api_key), ("lat", Json.num a), ("lng", Json.num b)]

/-! ### Helper predicates and lemmas -/

/-- Whether a computation failed with `LocationUnavailable`. -/
def isLocationUnavailable {α : Type} : Except PyErr α → Bool
  | .error (.locationUnavailable _) => true
  | _ => false

/-- Whether a computation failed with `InvalidResponse`. -/
def isInvalidResponse {α : Type} : Except PyErr α → Bool
  | .error (.invalidResponse _) => true
  | _ => false

theorem jsonIsOK_iff (j : Json) : jsonIsOK j = true ↔ j = Json.str "OK" := by
  cases j <;> simp [jsonIsOK]

/-! ### C1 -/

/-- C1: status-code validation is total and classifies exhaustively:
200 passes, 400 → `BadRequest`, 404/500 → `ApiUnavailable`,
403 → `AuthorizationError`, every other status → the generic
`DistrictApiError`. -/
theorem validate_response_total_classification :
    validate_response 200 = .ok () ∧
    validate_response 400 = .error .badRequest ∧
    (∀ c : Nat, c = 404 ∨ c = 500 → validate_response c = .error .apiUnavailable) ∧
    validate_response 403 = .error .authorizationError ∧
    (∀ c : Nat, c ≠ 200 → c ≠ 400 → c ≠ 403 → c ≠ 404 → c ≠ 500 →
      validate_response c = .error .districtApiError) := by
  refine ⟨rfl, rfl, ?_, rfl, ?_⟩
  · rintro c (rfl | rfl) <;> rfl
  · intro c h1 h2 h3 h4 h5
    simp [validate_response, h1, h2, h3, h4, h5]

/-- Witness for C1 at the concrete statuses 404 and 406. -/
theorem validate_response_total_classification_witness :
    validate_response 404 = .error .apiUnavailable ∧
    validate_response 406 = .error .districtApiError :=
  ⟨validate_response_total_classification.2.2.1 404 (Or.inl rfl),
    validate_response_total_classification.2.2.2.2 406 (by decide) (by decide)
      (by decide) (by decide) (by decide)⟩

/-! ### C2 -/

/-- C2 counterexample: `{"status": ""}` has a `status` field, yet body
validation raises `InvalidResponse` rather than `LocationUnavailable`,
because the code tests Python truthiness (`if not status`), not presence. -/
theorem validate_response_body_empty_status_counterexample :
    List.lookup "status" [("status", Json.str "")] = some (Json.str "") ∧
    validate_response_body [("status", Json.str "")] =
      .error (.invalidResponse (Json.obj [("status", Json.str "")])) ∧
    isLocationUnavailable (validate_response_body [("status", Json.str "")]) = false :=
  ⟨rfl, rfl, rfl⟩

/-- C2 amended: body validation raises `InvalidResponse` iff the `status`
field is absent or present with a falsy value; it raises
`LocationUnavailable` carrying the `errors` field iff `status` is present,
truthy and not equal to `"OK"`; it passes iff `status` equals `"OK"`. -/
theorem validate_response_body_amended (d : List (String × Json)) :
    (validate_response_body d = .error (.invalidResponse (Json.obj d)) ↔
      (d.lookup "status" = none ∨
        ∃ j, d.lookup "status" = some j ∧ jsonTruthy j = false)) ∧
    ((∃ j, d.lookup "status" = some j ∧ jsonTruthy j = true ∧ j ≠ Json.str "OK") ↔
      validate_response_body d = .error (.locationUnavailable (d.lookup "errors"))) ∧
    (validate_response_body d = .ok () ↔ d.lookup "status" = some (Json.str "OK")) := by
  unfold validate_response_body
  rcases h : d.lookup "status" with _ | j
  · simp
  · rcases ht : jsonTruthy j with _ | _
    · have hne : j ≠ Json.str "OK" := by
        intro he; rw [he] at ht; exact absurd ht (by simp [jsonTruthy])
      simp [ht, hne]
    · rcases hok : jsonIsOK j with _ | _
      · have hne : j ≠ Json.str "OK" := by
          intro he; rw [he] at hok; exact absurd hok (by simp [jsonIsOK])
        simp [ht, hok, hne]
      · have he : j = Json.str "OK" := (jsonIsOK_iff j).mp hok
        subst he
        simp [ht, hok]

/-- Witness for C2's amended claim at the concrete body
`{"status": "ERROR", "errors": []}`. -/
theorem validate_response_body_amended_witness :
    validate_response_body [("status", Json.str "ERROR"), ("errors", Json.arr [])] =
      .error (.locationUnavailable (some (Json.arr []))) :=
  (validate_response_body_amended
      [("status", Json.str "ERROR"), ("errors", Json.arr [])]).2.1.mp
    ⟨Json.str "ERROR", rfl, rfl, by simp⟩

/-! ### C6 -/

/-- C6: between two Districts whose labels are strings, `<` compares the
parsed integer values when both labels convert, and otherwise compares the
raw labels lexicographically. -/
theorem district_lt_rule (a b : District) (sa sb : String)
    (ha : a.district = Json.str sa) (hb : b.district = Json.str sb) :
    (∀ m n : Int, pyIntOfStr sa = some m → pyIntOfStr sb = some n →
      districtLt a b = .ok (decide (m < n))) ∧
    ((pyIntOfStr sa = none ∨ pyIntOfStr sb = none) →
      districtLt a b = .ok (pyStrLt sa sb)) := by
  constructor
  · intro m n hm hn
    simp [districtLt, districtLtPy, pyIntOfJson, ha, hb, hm, hn]
  · rintro (hm | hn)
    · simp [districtLt, districtLtPy, pyIntOfJson, ha, hb, hm, pyRawLt, pyTypeRank]
    · rcases hs : pyIntOfStr sa with _ | m <;>
        simp [districtLt, districtLtPy, pyIntOfJson, ha, hb, hs, hn, pyRawLt, pyTypeRank]

/-- Witness for C6: `District("07") < District("31")` numerically and
`District("Alpha") < District("Beta")` lexicographically. -/
theorem district_lt_rule_witness :
    districtLt ⟨Json.str "07", Json.str "Community District", Json.null⟩
      ⟨Json.str "31", Json.str "State Senate", Json.null⟩ = .ok true ∧
    districtLt ⟨Json.str "Alpha", Json.str "L", Json.null⟩
      ⟨Json.str "Beta", Json.str "L", Json.null⟩ = .ok true := by
  constructor
  · have h := (district_lt_rule
        ⟨Json.str "07", Json.str "Community District", Json.null⟩
        ⟨Json.str "31", Json.str "State Senate", Json.null⟩
        "07" "31" rfl rfl).1 7 31 rfl rfl
    rw [h]; rfl
  · have h := (district_lt_rule
        ⟨Json.str "Alpha", Json.str "L", Json.null⟩
        ⟨Json.str "Beta", Json.str "L", Json.null⟩
        "Alpha" "Beta" rfl rfl).2 (Or.inl rfl)
    rw [h]; rfl

/-! ### C7 -/

/-- C7 (code bug): comparing a District with a numeric label to a
non-District raises `TypeError` as documented, but with a non-numeric label
the `except ValueError` handler re-reads `other.district` outside the
`AttributeError` guard, so the comparison escapes with `AttributeError`
instead of the `TypeError` the code's own error message promises. -/
theorem district_lt_nondistrict_behavior :
    districtLtPy ⟨Json.str "Alpha", Json.str "L", Json.null⟩ (.plain (Json.num 5)) =
      .error .attributeError ∧
    districtLtPy ⟨Json.str "07", Json.str "L", Json.null⟩ (.plain (Json.num 5)) =
      .error .typeError :=
  ⟨rfl, rfl⟩

/-! ### C10 -/

/-- C10: equality of a District against any value missing at least one of
the three attributes is total and returns `False` (the `AttributeError` is
caught), even though ordering comparison against such a value raises. -/
theorem district_eq_missing_attribute_false (a : District) (v : EqOperand)
    (h : v.district = none ∨ v.level = none ∨ v.kml_url = none) :
    districtEqPy a v = false := by
  obtain ⟨vd, vl, vk⟩ := v
  cases vd <;> cases vl <;> cases vk <;> simp_all [districtEqPy]

/-- Witness for C10 at a value carrying only `district` and `kml_url`. -/
theorem district_eq_missing_attribute_false_witness :
    districtEqPy ⟨Json.str "07", Json.str "L", Json.null⟩
      ⟨some (Json.str "07"), none, some Json.null⟩ = false :=
  district_eq_missing_attribute_false _ _ (Or.inr (Or.inl rfl))

/-! ### C9 -/

/-- C9: request building is total and always returns a mapping with the API
key under `api-key`; with a coordinate pair supplied (as `get_districts`
does after converting the point's first two elements) it also contains
`lat` and `lng` with those values unchanged, and with no pair it contains
only the key. -/
theorem construct_query_vars_spec (api_key : String) :
    ((construct_query_vars api_key none).lookup "api-key" = some (Json.str api_key) ∧
      (∀ k : String, k ≠ "api-key" → (construct_query_vars api_key none).lookup k = none)) ∧
    (∀ a b : ℚ,
      (construct_query_vars api_key (some (a, b))).lookup "api-key" = some (Json.str api_key) ∧
      (construct_query_vars api_key (some (a, b))).lookup "lat" = some (Json.num a) ∧
      (construct_query_vars api_key (some (a, b))).lookup "lng" = some (Json.num b)) ∧
    (∀ (p x y : Json) (fa fb : ℚ),
      pyIndexNat p 0 = .ok x → pyFloat x = .ok fa →
      pyIndexNat p 1 = .ok y → pyFloat y = .ok fb →
      get_districts_args p = .ok (fa, fb) ∧
      (construct_query_vars api_key (some (fa, fb))).lookup "lat" = some (Json.num fa) ∧
      (construct_query_vars api_key (some (fa, fb))).lookup "lng" = some (Json.num fb)) := by
  refine ⟨⟨rfl, ?_⟩, ?_, ?_⟩
  · intro k hk
    simp [construct_query_vars, List.lookup, beq_eq_false_iff_ne.mpr hk]
  · intro a b
    exact ⟨rfl, rfl, rfl⟩
  · intro p x y fa fb h0 hx h1 hy
    refine ⟨?_, rfl, rfl⟩
    simp [get_districts_args, h0, hx, h1, hy, Bind.bind, Except.bind, Functor.map,
      Except.map, Pure.pure, Except.pure]

/-- Witness for C9 with key `"dummy"` and the point `(12, -10)`. -/
theorem construct_query_vars_spec_witness :
    get_districts_args (Json.arr [Json.num 12, Json.num (-10)]) = .ok (12, -10) ∧
    (construct_query_vars "dummy" (some (12, -10))).lookup "lat" = some (Json.num 12) ∧
    (construct_query_vars "dummy" (some (12, -10))).lookup "lng" = some (Json.num (-10)) :=
  (construct_query_vars_spec "dummy").2.2 (Json.arr [Json.num 12, Json.num (-10)])
    (Json.num 12) (Json.num (-10)) 12 (-10) rfl rfl rfl rfl

/-! ### C8 -/

theorem pyIndexNat_str_arr (s : String) (i : Nat) :
    pyIndexNat (Json.str s) i =
      pyIndexNat (Json.arr (s.toList.map (fun c => Json.str c.toString))) i := by
  simp only [pyIndexNat, List.getElem?_map, String.toList]
  cases h : s.data[i]? <;> simp [h]

/-- C8 counterexample: the point `(None, 0)` has a non-convertible first
element, yet `get_districts` raises `TypeError` (from `float(None)`), not
the `ValueError` the claim requires. -/
theorem get_districts_null_element_counterexample :
    get_districts_args (Json.arr [Json.null, Json.num 0]) = .error .typeError ∧
    (Except.error PyErr.typeError : Except PyErr (ℚ × ℚ)) ≠ .error .valueError :=
  ⟨rfl, by simp⟩

/-- C8 amended: argument validation of `get_districts` converts the first
two elements in order and ignores the rest; a conversion failure propagates
as `ValueError` for a non-convertible string element but as `TypeError` for
an element of non-numeric type; a non-indexable input raises `TypeError`, a
mapping raises `KeyError`, a too-short sequence raises `IndexError`, and a
string input is indexed as a sequence of its characters. -/
theorem get_districts_args_amended :
    (∀ (x y : Json) (rest : List Json) (a b : ℚ),
      pyFloat x = .ok a → pyFloat y = .ok b →
      get_districts_args (Json.arr (x :: y :: rest)) = .ok (a, b)) ∧
    (∀ (l : List Json) (x : Json) (e : PyErr),
      l[0]? = some x → pyFloat x = .error e →
      get_districts_args (Json.arr l) = .error e) ∧
    (∀ (l : List Json) (x : Json) (a : ℚ) (y : Json) (e : PyErr),
      l[0]? = some x → pyFloat x = .ok a → l[1]? = some y →
      pyFloat y = .error e → get_districts_args (Json.arr l) = .error e) ∧
    (∀ s : String, pyFloatOfStr s = none → pyFloat (Json.str s) = .error .valueError) ∧
    (pyFloat Json.null = .error .typeError ∧
      (∀ l, pyFloat (Json.arr l) = .error .typeError) ∧
      (∀ f, pyFloat (Json.obj f) = .error .typeError)) ∧
    (get_districts_args Json.null = .error .typeError ∧
      (∀ b, get_districts_args (Json.bool b) = .error .typeError) ∧
      (∀ q, get_districts_args (Json.num q) = .error .typeError)) ∧
    (∀ f, get_districts_args (Json.obj f) = .error .keyError) ∧
    (get_districts_args (Json.arr []) = .error .indexError ∧
      (∀ x a, pyFloat x = .ok a → get_districts_args (Json.arr [x]) = .error .indexError)) ∧
    (∀ s : String, get_districts_args (Json.str s) =
      get_districts_args (Json.arr (s.toList.map (fun c => Json.str c.toString)))) := by
  refine ⟨?_, ?_, ?_, ?_, ⟨rfl, fun l => rfl, fun f => rfl⟩,
    ⟨rfl, fun b => rfl, fun q => rfl⟩, fun f => rfl, ⟨rfl, ?_⟩, ?_⟩
  · intro x y rest a b hx hy
    simp [get_districts_args, pyIndexNat, hx, hy, Bind.bind, Except.bind,
      Functor.map, Except.map, Pure.pure, Except.pure]
  · intro l x e h0 hx
    simp [get_districts_args, pyIndexNat, h0, hx, Bind.bind, Except.bind]
  · intro l x a y e h0 hx h1 hy
    simp [get_districts_args, pyIndexNat, h0, hx, h1, hy, Bind.bind, Except.bind,
      Functor.map, Except.map]
  · intro s hs
    simp [pyFloat, hs]
  · intro x a hx
    simp [get_districts_args, pyIndexNat, hx, Bind.bind, Except.bind]
  · intro s
    simp only [get_districts_args, pyIndexNat_str_arr]

/-- Witness for C8's amended claim: a successful point with an ignored
third element, a non-convertible string giving `ValueError`, and a
too-short sequence giving `IndexError`. -/
theorem get_districts_args_amended_witness :
    get_districts_args (Json.arr [Json.num 12, Json.num (-10), Json.num 99]) = .ok (12, -10) ∧
    pyFloat (Json.str "abc") = .error .valueError ∧
    get_districts_args (Json.arr [Json.num 12]) = .error .indexError :=
  ⟨get_districts_args_amended.1 (Json.num 12) (Json.num (-10)) [Json.num 99] 12 (-10) rfl rfl,
    get_districts_args_amended.2.2.2.1 "abc" rfl,
    get_districts_args_amended.2.2.2.2.2.2.2.1.2 (Json.num 12) 12 rfl⟩

/-! ### Dictionary lemmas for the decoders -/

theorem keyBeq_iff (a b : Json) :
    keyBeq a b = true ↔ (a = b ∧ jsonHashable a = true) := by
  cases a <;> cases b <;> simp [keyBeq, jsonHashable]

/-- A row accepted by the single-location loop: it builds a District whose
level can be used as a dict key. -/
def goodRowB (row : Json) : Bool :=
  match rowDistrict row with
  | some d => jsonHashable d.level
  | none => false

/-- A row accepted by the all-districts pipeline end to end: additionally
its district label and level are strings. -/
def goodRowStrB (row : Json) : Bool :=
  match rowDistrict row with
  | some d => d.district.isStr && d.level.isStr
  | none => false

theorem dictLookup_setKey {β : Type} (m : List (Json × β)) (k : Json) (v : β)
    (k' : Json) :
    dictLookup k' (setKey m k v) =
      Option.or (if keyBeq k' k then some v else none) (dictLookup k' m) := by
  induction m with
  | nil =>
      simp only [setKey, dictLookup]
      cases h : keyBeq k' k <;> simp [h, Option.or]
  | cons hd tl ih =>
      obtain ⟨k2, v2⟩ := hd
      rcases h2 : keyBeq k2 k with _ | _
      · -- key not here: keep entry, recurse
        simp only [setKey, h2, Bool.false_eq_true, if_false, dictLookup]
        rcases h' : keyBeq k' k2 with _ | _
        · simp [ih, Option.or]
        · -- k' matches the kept entry; the new key cannot also match
          obtain ⟨rfl, hh⟩ := (keyBeq_iff k' k2).mp h'
          have : keyBeq k' k = false := by
            rcases h : keyBeq k' k with _ | _
            · rfl
            · obtain ⟨rfl, _⟩ := (keyBeq_iff k' k).mp h
              rw [h] at h2; exact absurd h2 (by simp)
          simp [this, Option.or]
      · -- replace in place
        obtain ⟨rfl, hh⟩ := (keyBeq_iff k2 k).mp h2
        simp only [setKey, h2, if_true, dictLookup]
        rcases h' : keyBeq k' k2 with _ | _ <;> simp [h', Option.or]

theorem singleLoop_lookup (items : List Json)
    (hgood : items.all goodRowB = true) :
    ∀ m : List (Json × District), ∃ M, singleLoop m items = .ok M ∧
      ∀ lvl : Json, dictLookup lvl M =
        Option.or
          (((items.filterMap rowDistrict).reverse).find? (fun d => keyBeq lvl d.level))
          (dictLookup lvl m) := by
  induction items with
  | nil => intro m; exact ⟨m, rfl, fun lvl => by simp [Option.or]⟩
  | cons row rest ih =>
      intro m
      have hrow : goodRowB row = true := by
        have := List.all_eq_true.mp hgood row (List.mem_cons_self row rest)
        exact this
      have hrest : rest.all goodRowB = true := by
        rw [List.all_eq_true] at hgood ⊢
        exact fun r hr => hgood r (List.mem_cons_of_mem row hr)
      rcases hd : rowDistrict row with _ | d
      · rw [goodRowB, hd] at hrow; exact absurd hrow (by simp)
      · have hh : jsonHashable d.level = true := by rw [goodRowB, hd] at hrow; exact hrow
        obtain ⟨M, hM, hl⟩ := ih hrest (setKey m d.level d)
        refine ⟨M, ?_, ?_⟩
        · simp [singleLoop, hd, hh, hM]
        · intro lvl
          rw [hl lvl, dictLookup_setKey]
          simp only [List.filterMap_cons, hd, List.reverse_cons]
          rw [List.find?_append]
          rcases hf : (((rest.filterMap rowDistrict).reverse).find?
              (fun d => keyBeq lvl d.level)) with _ | d'
          · simp [hf, List.find?, Option.or]
            rcases hb : keyBeq lvl d.level <;> simp [hb, Option.or]
          · simp [hf, Option.or]

/-! ### C4 -/

/-- The three rows of the literal payload in spec section 8. -/
def p8rows : List Json :=
  [ Json.obj [("district", Json.str "07"), ("level", Json.str "Community District"),
      ("kml_url", Json.str "http://x/167.xml")],
    Json.obj [("district", Json.str "Upper West Side"), ("level", Json.str "Neighborhood"),
      ("kml_url", Json.null)],
    Json.obj [("district", Json.str "31"), ("level", Json.str "State Senate"),
      ("kml_url", Json.str "http://x/1396.xml")] ]

/-- The literal single-location payload of spec section 8. -/
def p8payload : List (String × Json) :=
  [("results", Json.arr p8rows), ("status", Json.str "OK")]

/-- The district stored at a level by a single-location decode (`none` when
decoding failed or the level is absent). -/
def lookupSingle (data : List (String × Json)) (lvl : Json) : Option District :=
  match construct_single_location_data data with
  | .ok m => dictLookup lvl m
  | .error _ => none

/-- C4: on a payload whose rows all carry the three District keys (and a
key-usable level), single-location decoding succeeds and maps every level
to the District built from the *last* row of that level, in sequence order:
later rows for the same level overwrite earlier ones. -/
theorem construct_single_location_last_write_wins
    (data : List (String × Json)) (rows : List Json)
    (hres : data.lookup "results" = some (Json.arr rows))
    (hrows : rows.all goodRowB = true) :
    ∃ M, construct_single_location_data data = .ok M ∧
      ∀ lvl : Json, dictLookup lvl M =
        ((rows.filterMap rowDistrict).reverse).find? (fun d => keyBeq lvl d.level) := by
  obtain ⟨M, hM, hl⟩ := singleLoop_lookup rows hrows []
  refine ⟨M, ?_, ?_⟩
  · simp [construct_single_location_data, hres, pyIter, Bind.bind, Except.bind, hM]
  · intro lvl
    rw [hl lvl]
    simp [dictLookup, Option.or_none]

/-- Witness for C4 on the section 8 payload: the three levels map to the
expected Districts (including the null `kml_url` of the Neighborhood row)
and an absent level maps to nothing. -/
theorem construct_single_location_last_write_wins_witness :
    lookupSingle p8payload (Json.str "Community District") =
      some ⟨Json.str "07", Json.str "Community District", Json.str "http://x/167.xml"⟩ ∧
    lookupSingle p8payload (Json.str "Neighborhood") =
      some ⟨Json.str "Upper West Side", Json.str "Neighborhood", Json.null⟩ ∧
    lookupSingle p8payload (Json.str "State Senate") =
      some ⟨Json.str "31", Json.str "State Senate", Json.str "http://x/1396.xml"⟩ ∧
    lookupSingle p8payload (Json.str "Borough") = none := by
  obtain ⟨M, hM, hl⟩ :=
    construct_single_location_last_write_wins p8payload p8rows rfl (by decide)
  have hM' : construct_single_location_data p8payload =
      .ok [ (Json.str "Community District",
              ⟨Json.str "07", Json.str "Community District", Json.str "http://x/167.xml"⟩),
            (Json.str "Neighborhood",
              ⟨Json.str "Upper West Side", Json.str "Neighborhood", Json.null⟩),
            (Json.str "State Senate",
              ⟨Json.str "31", Json.str "State Senate", Json.str "http://x/1396.xml"⟩) ] := rfl
  rw [hM'] at hM
  obtain rfl : _ = M := Except.ok.inj hM
  refine ⟨?_, ?_, ?_, ?_⟩ <;> · simp only [lookupSingle, hM']; rw [hl]; rfl

/-! ### C5 -/

/-- A malformed result row in the sense of the shape check: not a mapping,
or a mapping missing one of the three District keys. -/
def badRow (row : Json) : Prop :=
  (∀ f, row ≠ Json.obj f) ∨
    (∃ f, row = Json.obj f ∧ (f.lookup "district" = none ∨ f.lookup "level" = none ∨
      f.lookup "kml_url" = none))

theorem rowDistrict_eq_none_of_badRow (row : Json) (h : badRow row) :
    rowDistrict row = none := by
  rcases h with h | ⟨f, rfl, hmiss⟩
  · cases row
    case obj f => exact absurd rfl (h f)
    all_goals rfl
  · rcases h1 : f.lookup "district" with _ | jd <;>
      rcases h2 : f.lookup "level" with _ | jl <;>
      rcases h3 : f.lookup "kml_url" with _ | jk <;>
      simp only [rowDistrict, h1, h2, h3]
    all_goals first
        | rfl
        | (rcases hmiss with h | h | h <;>
            first
              | exact absurd h1 (by rw [h]; exact fun he => Option.noConfusion he)
              | exact absurd h2 (by rw [h]; exact fun he => Option.noConfusion he)
              | exact absurd h3 (by rw [h]; exact fun he => Option.noConfusion he))

theorem singleLoop_invalid (items : List Json)
    (h : ∃ row ∈ items, rowDistrict row = none) :
    ∀ m, isInvalidResponse (singleLoop m items) = true := by
  induction items with
  | nil => rcases h with ⟨row, hr, _⟩; cases hr
  | cons row rest ih =>
      intro m
      rcases hd : rowDistrict row with _ | d
      · simp [singleLoop, hd, isInvalidResponse]
      · rcases h with ⟨r, hr, hnone⟩
        rcases List.mem_cons.mp hr with rfl | hr'
        · rw [hd] at hnone; cases hnone
        · rcases hh : jsonHashable d.level with _ | _
          · simp [singleLoop, hd, hh, isInvalidResponse]
          · simp only [singleLoop, hd, hh, if_true]
            exact ih ⟨r, hr', hnone⟩ _

theorem allLoop_invalid (items : List Json)
    (h : ∃ row ∈ items, rowDistrict row = none) :
    ∀ m, isInvalidResponse (allLoop m items) = true := by
  induction items with
  | nil => rcases h with ⟨row, hr, _⟩; cases hr
  | cons row rest ih =>
      intro m
      rcases hd : rowDistrict row with _ | d
      · simp [allLoop, hd, isInvalidResponse]
      · rcases h with ⟨r, hr, hnone⟩
        rcases List.mem_cons.mp hr with rfl | hr'
        · rw [hd] at hnone; cases hnone
        · rcases hh : jsonHashable d.level with _ | _
          · simp [allLoop, hd, hh, isInvalidResponse]
          · simp only [allLoop, hd, hh, if_true]
            exact ih ⟨r, hr', hnone⟩ _

/-- C5: in either decoding shape, a missing `results` key raises
`InvalidResponse` carrying the envelope, and any result row that is not a
mapping or is a mapping missing one of the `district`/`level`/`kml_url`
keys makes decoding raise `InvalidResponse`. -/
theorem construct_invalid_response_conditions (data : List (String × Json)) :
    (data.lookup "results" = none →
      construct_all_locations_data data = .error (.invalidResponse (Json.obj data)) ∧
      construct_single_location_data data = .error (.invalidResponse (Json.obj data))) ∧
    (∀ rows : List Json, data.lookup "results" = some (Json.arr rows) →
      (∃ row ∈ rows, badRow row) →
      isInvalidResponse (construct_all_locations_data data) = true ∧
      isInvalidResponse (construct_single_location_data data) = true) := by
  constructor
  · intro h
    constructor <;>
      simp [construct_all_locations_data, construct_single_location_data, h,
        Bind.bind, Except.bind]
  · rintro rows hres ⟨row, hmem, hbad⟩
    have hnone := rowDistrict_eq_none_of_badRow row hbad
    constructor
    · have hloop := allLoop_invalid rows ⟨row, hmem, hnone⟩ []
      rcases hA : allLoop [] rows with e | M
      · rw [hA] at hloop
        have hc : construct_all_locations_data data = .error e := by
          simp [construct_all_locations_data, hres, pyIter, Bind.bind, Except.bind, hA]
        rw [hc]; exact hloop
      · rw [hA] at hloop; exact absurd hloop (by simp [isInvalidResponse])
    · have hloop := singleLoop_invalid rows ⟨row, hmem, hnone⟩ []
      simpa [construct_single_location_data, hres, pyIter, Bind.bind, Except.bind]
        using hloop

/-- Witness for C5 on the spec's two example payloads
`{"results": [1, 2, 3]}` and `{"results": [{"a": "b"}]}`. -/
theorem construct_invalid_response_conditions_witness :
    isInvalidResponse (construct_single_location_data
      [("results", Json.arr [Json.num 1, Json.num 2, Json.num 3])]) = true ∧
    isInvalidResponse (construct_all_locations_data
      [("results", Json.arr [Json.num 1, Json.num 2, Json.num 3])]) = true ∧
    isInvalidResponse (construct_single_location_data
      [("results", Json.arr [Json.obj [("a", Json.str "b")]])]) = true ∧
    isInvalidResponse (construct_all_locations_data
      [("results", Json.arr [Json.obj [("a", Json.str "b")]])]) = true := by
  have h1 := (construct_invalid_response_conditions
      [("results", Json.arr [Json.num 1, Json.num 2, Json.num 3])]).2
      [Json.num 1, Json.num 2, Json.num 3] rfl
      ⟨Json.num 1, List.mem_cons_self _ _, Or.inl (fun f h => Json.noConfusion h)⟩
  have h2 := (construct_invalid_response_conditions
      [("results", Json.arr [Json.obj [("a", Json.str "b")]])]).2
      [Json.obj [("a", Json.str "b")]] rfl
      ⟨Json.obj [("a", Json.str "b")], List.mem_cons_self _ _,
        Or.inr ⟨[("a", Json.str "b")], rfl, Or.inl rfl⟩⟩
  exact ⟨h1.2, h1.1, h2.2, h2.1⟩

/-! ### C3: comparator lemmas -/

theorem charListLt_asymm : ∀ (xs ys : List Char),
    charListLt xs ys = true → charListLt ys xs = false
  | [], [] => by simp [charListLt]
  | [], _ :: _ => fun _ => rfl
  | _ :: _, [] => by simp [charListLt]
  | a :: as, b :: bs => by
      simp only [charListLt, Bool.or_eq_true, Bool.and_eq_true, decide_eq_true_eq,
        beq_iff_eq]
      rintro (hab | ⟨rfl, hrec⟩)
      · have h1 : ¬ b < a := lt_asymm hab
        have h2 : (b == a) = false := beq_eq_false_iff_ne.mpr (ne_of_gt hab)
        simp [charListLt, h1, h2]
      · have h1 : ¬ a < a := lt_irrefl a
        simp [charListLt, h1, charListLt_asymm as bs hrec]

theorem pyStrLt_asymm (s t : String) (h : pyStrLt s t = true) : pyStrLt t s = false :=
  charListLt_asymm _ _ h

/-- The Boolean computed by `District.__lt__` when both labels are strings
(the only case the sorted pipeline exercises). -/
def dLtB (a b : District) : Bool :=
  match a.district, b.district with
  | Json.str sa, Json.str sb =>
      match pyIntOfStr sa, pyIntOfStr sb with
      | some m, some n => decide (m < n)
      | _, _ => pyStrLt sa sb
  | _, _ => false

theorem isStr_exists (j : Json) (h : Json.isStr j = true) : ∃ s, j = Json.str s := by
  cases j <;> simp [Json.isStr] at h
  case str s => exact ⟨s, rfl⟩

theorem districtLt_eq_dLtB (a b : District)
    (ha : a.district.isStr = true) (hb : b.district.isStr = true) :
    districtLt a b = .ok (dLtB a b) := by
  obtain ⟨sa, hda⟩ := isStr_exists _ ha
  obtain ⟨sb, hdb⟩ := isStr_exists _ hb
  rcases hm : pyIntOfStr sa with _ | m <;> rcases hn : pyIntOfStr sb with _ | n <;>
    simp [districtLt, districtLtPy, pyIntOfJson, hda, hdb, hm, hn, dLtB, pyRawLt,
      pyTypeRank]

theorem dLtB_str_asymm (sa sb : String)
    (h : (match pyIntOfStr sa, pyIntOfStr sb with
          | some m, some n => decide (m < n)
          | _, _ => pyStrLt sa sb) = true) :
    (match pyIntOfStr sb, pyIntOfStr sa with
     | some m, some n => decide (m < n)
     | _, _ => pyStrLt sb sa) = false := by
  rcases hm : pyIntOfStr sa with _ | m <;> rcases hn : pyIntOfStr sb with _ | n <;>
    rw [hm, hn] at h
  · exact pyStrLt_asymm _ _ h
  · exact pyStrLt_asymm _ _ h
  · exact pyStrLt_asymm _ _ h
  · exact decide_eq_false (fun hc => lt_asymm (of_decide_eq_true h) hc)

theorem dLtB_asymm (a b : District) (h : dLtB a b = true) : dLtB b a = false := by
  obtain ⟨da, la, ka⟩ := a
  obtain ⟨db, lb, kb⟩ := b
  unfold dLtB at h ⊢
  dsimp only at h ⊢
  cases da <;> cases db
  all_goals first
    | exact absurd h Bool.false_ne_true
    | exact dLtB_str_asymm _ _ h

theorem chain'_dLtB_to_districtLt (l : List District)
    (hl : ∀ b ∈ l, b.district.isStr = true)
    (h : List.Chain' (fun x y => dLtB y x = false) l) :
    List.Chain' (fun x y => districtLt y x = .ok false) l := by
  induction l with
  | nil => simp
  | cons a t ih =>
      rcases t with _ | ⟨b, t'⟩
      · simp
      · rw [List.chain'_cons] at h ⊢
        refine ⟨?_, ih (fun x hx => hl x (List.mem_cons_of_mem _ hx)) h.2⟩
        rw [districtLt_eq_dLtB b a (hl b (by simp)) (hl a (by simp)), h.1]

theorem jsonHashable_of_isStr (j : Json) (h : Json.isStr j = true) :
    jsonHashable j = true := by
  cases j <;> simp [Json.isStr, jsonHashable] at h ⊢

theorem goodRowB_of_goodRowStrB (row : Json) (h : goodRowStrB row = true) :
    goodRowB row = true := by
  unfold goodRowStrB at h
  unfold goodRowB
  rcases hd : rowDistrict row with _ | d <;> rw [hd] at h
  · exact absurd h (by simp)
  · rw [Bool.and_eq_true] at h
    exact jsonHashable_of_isStr _ h.2

theorem filterMap_rowDistrict_str (rows : List Json)
    (hrows : rows.all goodRowStrB = true) :
    ∀ d ∈ rows.filterMap rowDistrict,
      d.district.isStr = true ∧ d.level.isStr = true := by
  intro d hd
  rcases List.mem_filterMap.mp hd with ⟨row, hmem, hrow⟩
  have h := List.all_eq_true.mp hrows row hmem
  unfold goodRowStrB at h
  rw [hrow] at h
  simp only [Bool.and_eq_true] at h
  exact h

/-! ### C3: sorting lemmas -/

theorem pyInsert_ok (a : District) (l : List District)
    (ha : a.district.isStr = true) (hl : ∀ b ∈ l, b.district.isStr = true) :
    ∃ l', pyInsert a l = .ok l' ∧ l'.Perm (a :: l) ∧
      (∀ b ∈ l', b.district.isStr = true) ∧
      (∀ c, l'.head? = some c → c = a ∨ l.head? = some c) ∧
      (List.Chain' (fun x y => dLtB y x = false) l →
        List.Chain' (fun x y => dLtB y x = false) l') := by
  induction l with
  | nil =>
      refine ⟨[a], rfl, List.Perm.refl _, ?_, ?_, ?_⟩
      · intro b hb
        rcases List.mem_singleton.mp hb with rfl
        exact ha
      · intro c hc
        exact Or.inl (Option.some.inj hc).symm
      · intro _
        simp
  | cons b t ih =>
      have hb : b.district.isStr = true := hl b (List.mem_cons_self b t)
      have ht : ∀ x ∈ t, x.district.isStr = true :=
        fun x hx => hl x (List.mem_cons_of_mem b hx)
      rcases hcmp : dLtB b a with _ | _
      · refine ⟨a :: b :: t, ?_, List.Perm.refl _, ?_, ?_, ?_⟩
        · simp [pyInsert, districtLt_eq_dLtB b a hb ha, hcmp]
        · intro x hx
          rcases List.mem_cons.mp hx with rfl | hx'
          · exact ha
          · exact hl x hx'
        · intro c hc
          exact Or.inl (Option.some.inj hc).symm
        · intro hch
          rw [List.chain'_cons]
          exact ⟨hcmp, hch⟩
      · obtain ⟨rest, hIns, hPerm, hStr, hHead, hChain⟩ := ih ht
        refine ⟨b :: rest, ?_, ?_, ?_, ?_, ?_⟩
        · simp [pyInsert, districtLt_eq_dLtB b a hb ha, hcmp, hIns]
        · exact (hPerm.cons b).trans (List.Perm.swap a b t)
        · intro x hx
          rcases List.mem_cons.mp hx with rfl | hx'
          · exact hb
          · exact hStr x hx'
        · intro c hc
          exact Or.inr ((Option.some.inj hc) ▸ rfl)
        · intro hch
          rw [List.chain'_cons']
          refine ⟨?_, hChain (List.Chain'.tail hch)⟩
          intro c hc
          rcases hHead c hc with rfl | hhd
          · exact dLtB_asymm b c hcmp
          · rcases t with _ | ⟨b', t'⟩
            · cases hhd
            · rw [List.chain'_cons] at hch
              have : b' = c := by simpa using hhd
              exact this ▸ hch.1

theorem pySorted_ok (l : List District) (hl : ∀ b ∈ l, b.district.isStr = true) :
    ∃ l', pySorted l = .ok l' ∧ l'.Perm l ∧ (∀ b ∈ l', b.district.isStr = true) ∧
      List.Chain' (fun x y => dLtB y x = false) l' := by
  induction l with
  | nil => exact ⟨[], rfl, List.Perm.refl _, by simp, by simp⟩
  | cons a t ih =>
      have ha := hl a (List.mem_cons_self a t)
      have ht : ∀ x ∈ t, x.district.isStr = true :=
        fun x hx => hl x (List.mem_cons_of_mem a hx)
      obtain ⟨s, hs, hsPerm, hsStr, hsChain⟩ := ih ht
      obtain ⟨l', hIns, hPerm, hStr, _, hChain⟩ := pyInsert_ok a s ha hsStr
      refine ⟨l', ?_, ?_, hStr, hChain hsChain⟩
      · simp [pySorted, hs, hIns]
      · exact hPerm.trans (hsPerm.cons a)

theorem dictLookup_addRow (m : List (Json × List District)) (k : Json) (v : District)
    (k' : Json) :
    dictLookup k' (addRow m k v) =
      match dictLookup k' m with
      | some ds => if keyBeq k' k then some (ds ++ [v]) else some ds
      | none => if keyBeq k' k then some [v] else none := by
  induction m with
  | nil => simp only [addRow, dictLookup]
  | cons hd tl ih =>
      obtain ⟨k2, ds⟩ := hd
      rcases h2 : keyBeq k2 k with _ | _ <;> rcases h' : keyBeq k' k2 with _ | _
      · simp [addRow, dictLookup, h2, h', ih]
      · obtain ⟨rfl, hh⟩ := (keyBeq_iff k' k2).mp h'
        have hrefl : keyBeq k' k' = true := (keyBeq_iff k' k').mpr ⟨rfl, hh⟩
        simp [addRow, dictLookup, h2, hrefl]
      · obtain ⟨rfl, _⟩ := (keyBeq_iff k2 k).mp h2
        simp only [addRow, h2, if_true, dictLookup, h', Bool.false_eq_true, if_false]
        rcases hL : dictLookup k' tl with _ | ds' <;> simp [hL, h']
      · obtain ⟨rfl, _⟩ := (keyBeq_iff k2 k).mp h2
        simp [addRow, dictLookup, h2, h']

theorem mem_addRow (m : List (Json × List District)) (k : Json) (v : District) :
    ∀ p ∈ addRow m k v, ∀ d ∈ p.2, d = v ∨ ∃ p' ∈ m, d ∈ p'.2 := by
  induction m with
  | nil =>
      intro p hp d hd
      rcases List.mem_singleton.mp hp with rfl
      simp only [List.mem_singleton] at hd
      exact Or.inl hd
  | cons hd0 tl ih =>
      obtain ⟨k2, ds⟩ := hd0
      intro p hp d hd
      rcases h2 : keyBeq k2 k with _ | _ <;> rw [addRow, h2] at hp
      · simp only [Bool.false_eq_true, if_false] at hp
        rcases List.mem_cons.mp hp with rfl | hp'
        · exact Or.inr ⟨(k2, ds), List.mem_cons_self _ _, hd⟩
        · rcases ih p hp' d hd with h | ⟨p', hp'', hd'⟩
          · exact Or.inl h
          · exact Or.inr ⟨p', List.mem_cons_of_mem _ hp'', hd'⟩
      · simp only [if_true] at hp
        rcases List.mem_cons.mp hp with rfl | hp'
        · simp only [List.mem_append, List.mem_singleton] at hd
          rcases hd with hd | rfl
          · exact Or.inr ⟨(k2, ds), List.mem_cons_self _ _, hd⟩
          · exact Or.inl rfl
        · exact Or.inr ⟨p, List.mem_cons_of_mem _ hp', hd⟩

theorem goodRowB_some (row : Json) (d : District) (hd : rowDistrict row = some d)
    (h : goodRowB row = true) : jsonHashable d.level = true := by
  unfold goodRowB at h
  rw [hd] at h
  exact h

theorem allLoop_ok (items : List Json) (hgood : items.all goodRowB = true) :
    ∀ m : List (Json × List District), ∃ M, allLoop m items = .ok M ∧
      (∀ lvl : Json, dictLookup lvl M =
        match dictLookup lvl m with
        | some ds => some (ds ++ (items.filterMap rowDistrict).filter
            (fun d => keyBeq lvl d.level))
        | none =>
            if ((items.filterMap rowDistrict).filter
                (fun d => keyBeq lvl d.level)).isEmpty
            then none
            else some ((items.filterMap rowDistrict).filter
                (fun d => keyBeq lvl d.level))) ∧
      (∀ p ∈ M, ∀ d ∈ p.2, (∃ p' ∈ m, d ∈ p'.2) ∨
        ∃ row ∈ items, rowDistrict row = some d) := by
  induction items with
  | nil =>
      intro m
      refine ⟨m, rfl, ?_, ?_⟩
      · intro lvl
        rcases hL : dictLookup lvl m with _ | ds <;> simp [hL]
      · intro p hp d hd
        exact Or.inl ⟨p, hp, hd⟩
  | cons row rest ih =>
      intro m
      have hrow : goodRowB row = true :=
        List.all_eq_true.mp hgood row (List.mem_cons_self row rest)
      have hrest : rest.all goodRowB = true := by
        rw [List.all_eq_true] at hgood ⊢
        exact fun r hr => hgood r (List.mem_cons_of_mem row hr)
      rcases hd : rowDistrict row with _ | d
      · have : goodRowB row = false := by unfold goodRowB; rw [hd]
        rw [this] at hrow
        exact absurd hrow (by simp)
      · have hh : jsonHashable d.level = true := goodRowB_some row d hd hrow
        obtain ⟨M, hM, hl, hmem⟩ := ih hrest (addRow m d.level d)
        refine ⟨M, ?_, ?_, ?_⟩
        · simp [allLoop, hd, hh, hM]
        · intro lvl
          rw [hl lvl, dictLookup_addRow]
          simp only [List.filterMap_cons, hd, List.filter_cons]
          rcases hb : keyBeq lvl d.level with _ | _
          · simp only [hb, Bool.false_eq_true, if_false]
            rcases hL : dictLookup lvl m with _ | ds <;> simp [hL]
          · simp only [hb, if_true]
            rcases hL : dictLookup lvl m with _ | ds <;> simp [hL]
        · intro p hp d' hd'
          rcases hmem p hp d' hd' with ⟨p', hp', hdp⟩ | ⟨r, hr, hrd⟩
          · rcases mem_addRow m d.level d p' hp' d' hdp with rfl | ⟨p'', hp'', hdp'⟩
            · exact Or.inr ⟨row, List.mem_cons_self _ _, hd⟩
            · exact Or.inl ⟨p'', hp'', hdp'⟩
          · exact Or.inr ⟨r, List.mem_cons_of_mem _ hr, hrd⟩

theorem sortEntries_ok (entries : List (Json × List District))
    (hs : ∀ p ∈ entries, ∀ d ∈ p.2, d.district.isStr = true) :
    ∃ E, sortEntries entries = .ok E ∧
      ∀ lvl : Json,
        (dictLookup lvl entries = none → dictLookup lvl E = none) ∧
        (∀ ds, dictLookup lvl entries = some ds →
          ∃ ds', dictLookup lvl E = some ds' ∧ pySorted ds = .ok ds') := by
  induction entries with
  | nil =>
      refine ⟨[], rfl, fun lvl => ⟨fun _ => rfl, fun ds h => ?_⟩⟩
      cases h
  | cons hd tl ih =>
      obtain ⟨k, ds⟩ := hd
      have hds : ∀ d ∈ ds, d.district.isStr = true :=
        hs (k, ds) (List.mem_cons_self _ _)
      have htl : ∀ p ∈ tl, ∀ d ∈ p.2, d.district.isStr = true :=
        fun p hp => hs p (List.mem_cons_of_mem _ hp)
      obtain ⟨s, hsort, _, _, _⟩ := pySorted_ok ds hds
      obtain ⟨E, hE, hlook⟩ := ih htl
      refine ⟨(k, s) :: E, ?_, ?_⟩
      · simp [sortEntries, hsort, hE]
      · intro lvl
        rcases h' : keyBeq lvl k with _ | _
        · refine ⟨fun h => ?_, fun ds0 h => ?_⟩
          · simp only [dictLookup, h', Bool.false_eq_true, if_false] at h ⊢
            exact (hlook lvl).1 h
          · simp only [dictLookup, h', Bool.false_eq_true, if_false] at h ⊢
            exact (hlook lvl).2 ds0 h
        · refine ⟨fun h => ?_, fun ds0 h => ?_⟩
          · simp only [dictLookup, h', if_true] at h
            cases h
          · simp only [dictLookup, h', if_true] at h ⊢
            obtain rfl := Option.some.inj h
            exact ⟨s, rfl, hsort⟩

/-- C3: on a payload whose rows all carry the three District keys with
string-valued `district` and `level`, all-districts decoding succeeds; a
level is a key of the result exactly when some row has that level, and the
list stored at a level consists of exactly that level's districts (as a
permutation of their row order), arranged so that no later district
compares `<` an earlier adjacent one — i.e. sorted by the District ordering
rule. -/
theorem construct_all_locations_grouped_sorted
    (data : List (String × Json)) (rows : List Json)
    (hres : data.lookup "results" = some (Json.arr rows))
    (hrows : rows.all goodRowStrB = true) :
    ∃ M, construct_all_locations_data data = .ok M ∧
      ∀ lvl : Json,
        ((rows.filterMap rowDistrict).filter (fun d => keyBeq lvl d.level) = [] →
          dictLookup lvl M = none) ∧
        ((rows.filterMap rowDistrict).filter (fun d => keyBeq lvl d.level) ≠ [] →
          ∃ ds, dictLookup lvl M = some ds) ∧
        (∀ ds, dictLookup lvl M = some ds →
          ds.Perm ((rows.filterMap rowDistrict).filter (fun d => keyBeq lvl d.level)) ∧
          List.Chain' (fun x y => districtLt y x = .ok false) ds) := by
  have hgoodB : rows.all goodRowB = true := by
    rw [List.all_eq_true] at hrows ⊢
    exact fun r hr => goodRowB_of_goodRowStrB r (hrows r hr)
  obtain ⟨R, hR, hlookR, hmemR⟩ := allLoop_ok rows hgoodB []
  have hstrR : ∀ p ∈ R, ∀ d ∈ p.2, d.district.isStr = true := by
    intro p hp d hd
    rcases hmemR p hp d hd with ⟨p', hp', _⟩ | ⟨r, hr, hrd⟩
    · exact absurd hp' (List.not_mem_nil p')
    · exact (filterMap_rowDistrict_str rows hrows d
        (List.mem_filterMap.mpr ⟨r, hr, hrd⟩)).1
  obtain ⟨E, hE, hlookE⟩ := sortEntries_ok R hstrR
  refine ⟨E, ?_, ?_⟩
  · simp [construct_all_locations_data, hres, pyIter, Bind.bind, Except.bind, hR, hE]
  · intro lvl
    have hlR := hlookR lvl
    simp only [dictLookup] at hlR
    have hFstr : ∀ d ∈ (rows.filterMap rowDistrict).filter
        (fun d => keyBeq lvl d.level), d.district.isStr = true :=
      fun d hd => (filterMap_rowDistrict_str rows hrows d
        (List.mem_of_mem_filter hd)).1
    refine ⟨?_, ?_, ?_⟩
    · intro hF
      have hRn : dictLookup lvl R = none := by rw [hlR]; simp [hF]
      exact (hlookE lvl).1 hRn
    · intro hF
      have hne : ((rows.filterMap rowDistrict).filter
          (fun d => keyBeq lvl d.level)).isEmpty = false := by
        rcases hFe : (rows.filterMap rowDistrict).filter
            (fun d => keyBeq lvl d.level) with _ | ⟨f0, F'⟩
        · exact absurd hFe hF
        · rw [hFe]; rfl
      have hRs : dictLookup lvl R = some ((rows.filterMap rowDistrict).filter
          (fun d => keyBeq lvl d.level)) := by rw [hlR]; simp [hne]
      obtain ⟨ds', hds', _⟩ := (hlookE lvl).2 _ hRs
      exact ⟨ds', hds'⟩
    · intro ds hds
      by_cases hF : (rows.filterMap rowDistrict).filter
          (fun d => keyBeq lvl d.level) = []
      · have hRn : dictLookup lvl R = none := by rw [hlR]; simp [hF]
        have := (hlookE lvl).1 hRn
        rw [this] at hds
        cases hds
      · have hne : ((rows.filterMap rowDistrict).filter
            (fun d => keyBeq lvl d.level)).isEmpty = false := by
          rcases hFe : (rows.filterMap rowDistrict).filter
              (fun d => keyBeq lvl d.level) with _ | ⟨f0, F'⟩
          · exact absurd hFe hF
          · rw [hFe]; rfl
        have hRs : dictLookup lvl R = some ((rows.filterMap rowDistrict).filter
            (fun d => keyBeq lvl d.level)) := by rw [hlR]; simp [hne]
        obtain ⟨ds'', hds'', hsorted⟩ := (hlookE lvl).2 _ hRs
        rw [hds] at hds''
        obtain rfl := Option.some.inj hds''
        obtain ⟨l', hsF, hperm, hstr', hchain⟩ := pySorted_ok _ hFstr
        rw [hsF] at hsorted
        obtain rfl := Except.ok.inj hsorted
        exact ⟨hperm, chain'_dLtB_to_districtLt _ hstr' hchain⟩

/-- Rows with two levels: `"L"` holds the numeric labels 31 and 07 (listed
out of order) and `"M"` the non-numeric labels Beta and Alpha. -/
def allRows : List Json :=
  [ Json.obj [("district", Json.str "31"), ("level", Json.str "L"), ("kml_url", Json.null)],
    Json.obj [("district", Json.str "07"), ("level", Json.str "L"), ("kml_url", Json.null)],
    Json.obj [("district", Json.str "Beta"), ("level", Json.str "M"), ("kml_url", Json.null)],
    Json.obj [("district", Json.str "Alpha"), ("level", Json.str "M"), ("kml_url", Json.null)] ]

/-- An all-districts payload built from `allRows`. -/
def allPayload : List (String × Json) := [("results", Json.arr allRows)]

/-- The district list stored at a level by an all-districts decode. -/
def lookupAll (data : List (String × Json)) (lvl : Json) : Option (List District) :=
  match construct_all_locations_data data with
  | .ok m => dictLookup lvl m
  | .error _ => none

/-- Witness for C3: the numeric level sorts 07 before 31, the non-numeric
level sorts Alpha before Beta, and a level with no rows is absent. -/
theorem construct_all_locations_grouped_sorted_witness :
    lookupAll allPayload (Json.str "L") =
      some [⟨Json.str "07", Json.str "L", Json.null⟩,
        ⟨Json.str "31", Json.str "L", Json.null⟩] ∧
    lookupAll allPayload (Json.str "M") =
      some [⟨Json.str "Alpha", Json.str "M", Json.null⟩,
        ⟨Json.str "Beta", Json.str "M", Json.null⟩] ∧
    lookupAll allPayload (Json.str "X") = none := by
  obtain ⟨M, hM, hl⟩ :=
    construct_all_locations_grouped_sorted allPayload allRows rfl (by decide)
  have hconc : construct_all_locations_data allPayload =
      .ok [ (Json.str "L", [⟨Json.str "07", Json.str "L", Json.null⟩,
              ⟨Json.str "31", Json.str "L", Json.null⟩]),
            (Json.str "M", [⟨Json.str "Alpha", Json.str "M", Json.null⟩,
              ⟨Json.str "Beta", Json.str "M", Json.null⟩]) ] := rfl
  rw [hconc] at hM
  obtain rfl : _ = M := Except.ok.inj hM
  refine ⟨?_, ?_, ?_⟩
  · simp only [lookupAll, hconc]
    rfl
  · simp only [lookupAll, hconc]
    rfl
  · simp only [lookupAll, hconc]
    exact (hl (Json.str "X")).1 rfl
